import Mathlib

/-!
Verification of the core logic of `floatingtoolbar.py`: the playback
command router (`execute_command`) and the drag gesture detector
(the `mouse_press` / `mouse_move` / `mouse_release` handlers installed
by `setup_dragging`), embedded shallowly as pure Lean functions.
-/

namespace FloatingToolbar

/-- Result of one call to `execute_command`:
`cmdKey` is the `Commands` configuration key that the branch looked up,
`launched` is `some c` when `subprocess.Popen(c)` was invoked (the Python
code launches a process only when the configured string is non-empty),
and `play_state` is the value of `self.play_state` after the call. -/
structure ExecResult where
  cmdKey : String
  launched : Option String
  play_state : String
deriving DecidableEq, Repr

/-- Shallow embedding of `FloatingToolbar.execute_command`
(src/floatingtoolbar.py lines 669-741).  `cfg k` stands for
`self.config.get('Commands', k, fallback='')`; the Python truthiness
test `if command:` becomes `command ≠ ""`. -/
def execute_command (cfg : String → String) (command_key : String)
    (play_state : String) : ExecResult :=
  if command_key = "play" then
    if play_state = "paused" then
      let command := cfg "resume"
      if command ≠ "" then ⟨"resume", some command, "playing"⟩
      else ⟨"resume", none, play_state⟩
    else
      let command := cfg "play"
      if command ≠ "" then ⟨"play", some command, "playing"⟩
      else ⟨"play", none, play_state⟩
  else if command_key = "pause" then
    if play_state = "playing" then
      let command := cfg "pause"
      if command ≠ "" then ⟨"pause", some command, "paused"⟩
      else ⟨"pause", none, play_state⟩
    else if play_state = "paused" then
      let command := cfg "resume"
      if command ≠ "" then ⟨"resume", some command, "playing"⟩
      else ⟨"resume", none, play_state⟩
    else
      let command := cfg "pause"
      if command ≠ "" then ⟨"pause", some command, play_state⟩
      else ⟨"pause", none, play_state⟩
  else if command_key = "stop" then
    let command := cfg "stop"
    if command ≠ "" then ⟨"stop", some command, ""⟩
    else ⟨"stop", none, play_state⟩
  else if command_key = "rewind" ∨ command_key = "fast_forward" then
    let command := cfg command_key
    if command ≠ "" then ⟨command_key, some command, "playing"⟩
    else ⟨command_key, none, play_state⟩
  else
    let command := cfg command_key
    if command ≠ "" then ⟨command_key, some command, play_state⟩
    else ⟨command_key, none, play_state⟩

/-- The spec's `route(buttonKey, currentState) -> (commandKey, nextState)`
abstraction of `execute_command`: which configuration key is routed to
and what the playback state becomes. -/
def route (cfg : String → String) (key s : String) : String × String :=
  let r := execute_command cfg key s
  (r.cmdKey, r.play_state)

/-- Initial value of `self.play_state` set in `FloatingToolbar.__init__`
(src/floatingtoolbar.py line 25): the empty string, i.e. Idle. -/
def initial_play_state : String := ""

/-- Iterated routing of the "stop" button starting from the Idle state,
persisting each returned next state as the new current state. -/
def iterate_stop (cfg : String → String) : Nat → String
  | 0 => initial_play_state
  | n + 1 => (execute_command cfg "stop" (iterate_stop cfg n)).play_state

/-- The five button keys whose routing implies a playback-state movement. -/
def movementKeys : List String :=
  ["play", "pause", "stop", "rewind", "fast_forward"]

/-- An integer point, as Qt's `QPoint`. -/
structure Point where
  x : Int
  y : Int
deriving DecidableEq, Repr

/-- Componentwise difference of two points (`QPoint` subtraction). -/
def Point.sub (a b : Point) : Point :=
  ⟨a.x - b.x, a.y - b.y⟩

/-- `QPoint.manhattanLength`: the sum of the absolute values of the
coordinates. -/
def Point.manhattanLength (p : Point) : Nat :=
  p.x.natAbs + p.y.natAbs

/-- The pointer button carried by a mouse event. -/
inductive MouseButton
  | left
  | right
  | middle
deriving DecidableEq, Repr

/-- The mutable fields that the handlers installed by `setup_dragging`
read and write: `self.draggable`, `self.drag_started`, `self.offset`,
`self.press_pos`, and the window position (`self.pos()` / `self.move`). -/
structure DragState where
  draggable : Bool
  drag_started : Bool
  offset : Option Point
  press_pos : Point
  winPos : Point
deriving DecidableEq, Repr

/-- Shallow embedding of the `mouse_press` closure of `setup_dragging`
(src/floatingtoolbar.py lines 749-756).  The returned Bool records
whether the original (default) press handler is called — it always is. -/
def mouse_press (s : DragState) (b : MouseButton) (g : Point) :
    DragState × Bool :=
  if b = MouseButton.left then
    ({ s with
        draggable := true
        drag_started := false
        offset := some (Point.sub g s.winPos)
        press_pos := g }, true)
  else
    (s, true)

/-- Shallow embedding of the `mouse_move` closure of `setup_dragging`
(src/floatingtoolbar.py lines 758-771).  The returned Bool records
whether the original (default) move handler is called; `false` means the
move was consumed by the drag. -/
def mouse_move (s : DragState) (g : Point) : DragState × Bool :=
  match s.offset with
  | some off =>
    if s.draggable then
      let started :=
        if s.drag_started then true
        else decide ((Point.sub g s.press_pos).manhattanLength > 5)
      if started then
        ({ s with drag_started := true, winPos := Point.sub g off }, false)
      else
        (s, true)
    else
      (s, true)
  | none => (s, true)

/-- Shallow embedding of the `mouse_release` closure of `setup_dragging`
(src/floatingtoolbar.py lines 773-784).  The returned Bool records
whether the original (default) release handler is called, i.e. whether
the click behavior fires. -/
def mouse_release (s : DragState) (b : MouseButton) : DragState × Bool :=
  if b = MouseButton.left then
    ({ s with
        draggable := false
        drag_started := false
        offset := none }, !s.drag_started)
  else
    (s, true)

/-- Feed a list of move events through `mouse_move`, keeping the state. -/
def run_moves (s : DragState) (moves : List Point) : DragState :=
  moves.foldl (fun st g => (mouse_move st g).fst) s

end FloatingToolbar

namespace FloatingToolbar

/-- C1 counterexample: with every configured command empty, pressing
"play" while Paused routes to the "resume" key, launches nothing — and
leaves the state at "paused" instead of moving it to "playing" as the
claim prescribes. -/
theorem execute_command_empty_resume_keeps_paused :
    execute_command (fun _ => "") "play" "paused" =
      ⟨"resume", none, "paused"⟩ ∧ ("paused" : String) ≠ "playing" := by
  constructor
  · rfl
  · decide

/-- C1 (amended): for every movement-implying button key and every state,
if the configured command string for the routed command key is empty,
no process is launched and the playback state is left unchanged (the
table's transition does not take place). -/
theorem execute_command_empty_no_launch_no_transition
    (cfg : String → String) (key s : String)
    (hk : key ∈ movementKeys)
    (hc : cfg (execute_command cfg key s).cmdKey = "") :
    (execute_command cfg key s).launched = none ∧
      (execute_command cfg key s).play_state = s := by
  simp only [movementKeys, List.mem_cons, List.not_mem_nil, or_false] at hk
  rcases hk with h | h | h | h | h <;> subst h <;>
    simp only [execute_command] at hc ⊢ <;>
    split_ifs at hc ⊢ <;> simp_all

/-- C1 witness for the amended theorem, at key "play", state "paused",
with an all-empty configuration. -/
theorem execute_command_empty_no_launch_no_transition_witness :
    (execute_command (fun _ => "") "play" "paused").launched = none ∧
      (execute_command (fun _ => "") "play" "paused").play_state = "paused" :=
  execute_command_empty_no_launch_no_transition (fun _ => "")
    "play" "paused" (by decide) rfl

/-- C2: assuming the relevant commands are configured (non-empty), the
router conforms to the transition table of the spec, for every current
playback state Idle (""), Playing ("playing"), Paused ("paused"). -/
theorem route_transition_table (cfg : String → String)
    (hplay : cfg "play" ≠ "") (hresume : cfg "resume" ≠ "")
    (hpause : cfg "pause" ≠ "") (hstop : cfg "stop" ≠ "")
    (hrew : cfg "rewind" ≠ "") (hff : cfg "fast_forward" ≠ "") :
    route cfg "play" "" = ("play", "playing") ∧
    route cfg "play" "playing" = ("play", "playing") ∧
    route cfg "play" "paused" = ("resume", "playing") ∧
    route cfg "pause" "playing" = ("pause", "paused") ∧
    route cfg "pause" "paused" = ("resume", "playing") ∧
    route cfg "stop" "" = ("stop", "") ∧
    route cfg "stop" "playing" = ("stop", "") ∧
    route cfg "stop" "paused" = ("stop", "") ∧
    route cfg "rewind" "" = ("rewind", "playing") ∧
    route cfg "rewind" "playing" = ("rewind", "playing") ∧
    route cfg "rewind" "paused" = ("rewind", "playing") ∧
    route cfg "fast_forward" "" = ("fast_forward", "playing") ∧
    route cfg "fast_forward" "playing" = ("fast_forward", "playing") ∧
    route cfg "fast_forward" "paused" = ("fast_forward", "playing") := by
  refine ⟨?_, ?_, ?_, ?_, ?_, ?_, ?_, ?_, ?_, ?_, ?_, ?_, ?_, ?_⟩ <;>
    simp [route, execute_command, hplay, hresume, hpause, hstop, hrew, hff]

/-- C2 witness: the transition table holds for the identity
configuration, in which every command string is its own key. -/
theorem route_transition_table_witness :
    route (fun k => k) "play" "" = ("play", "playing") ∧
    route (fun k => k) "play" "playing" = ("play", "playing") ∧
    route (fun k => k) "play" "paused" = ("resume", "playing") ∧
    route (fun k => k) "pause" "playing" = ("pause", "paused") ∧
    route (fun k => k) "pause" "paused" = ("resume", "playing") ∧
    route (fun k => k) "stop" "" = ("stop", "") ∧
    route (fun k => k) "stop" "playing" = ("stop", "") ∧
    route (fun k => k) "stop" "paused" = ("stop", "") ∧
    route (fun k => k) "rewind" "" = ("rewind", "playing") ∧
    route (fun k => k) "rewind" "playing" = ("rewind", "playing") ∧
    route (fun k => k) "rewind" "paused" = ("rewind", "playing") ∧
    route (fun k => k) "fast_forward" "" = ("fast_forward", "playing") ∧
    route (fun k => k) "fast_forward" "playing" = ("fast_forward", "playing") ∧
    route (fun k => k) "fast_forward" "paused" = ("fast_forward", "playing") :=
  route_transition_table (fun k => k) (by decide) (by decide) (by decide)
    (by decide) (by decide) (by decide)

/-- C5: routing "pause" while Idle (state "") executes the configured
"pause" command anyway and leaves the state unchanged at Idle. -/
theorem execute_command_pause_while_idle (cfg : String → String)
    (h : cfg "pause" ≠ "") :
    execute_command cfg "pause" "" = ⟨"pause", some (cfg "pause"), ""⟩ := by
  simp [execute_command, h]

/-- C5 witness at the identity configuration. -/
theorem execute_command_pause_while_idle_witness :
    execute_command (fun k => k) "pause" "" = ⟨"pause", some "pause", ""⟩ :=
  execute_command_pause_while_idle (fun k => k) (by decide)

/-- C6: every button key outside the play/pause/stop/rewind/fast_forward
set passes through as the routed command key and leaves the playback
state unchanged, for every configuration and every current state. -/
theorem route_pass_through (cfg : String → String) (key s : String)
    (hk : key ∉ movementKeys) :
    route cfg key s = (key, s) := by
  simp only [movementKeys, List.mem_cons, List.not_mem_nil, or_false,
    not_or] at hk
  obtain ⟨h1, h2, h3, h4, h5⟩ := hk
  by_cases hc : cfg key = "" <;>
    simp [route, execute_command, h1, h2, h3, h4, h5, hc]

/-- C6 witness: `route("record", Playing) = ("record", Playing)` under the
identity configuration. -/
theorem route_pass_through_witness :
    route (fun k => k) "record" "playing" = ("record", "playing") :=
  route_pass_through (fun k => k) "record" "playing" (by decide)

/-- C8: routing "stop" is idempotent on the playback state: starting from
Idle, any number of repetitions of the call leaves the state at Idle and
each call yields the route ("stop", Idle), for every configuration. -/
theorem route_stop_idempotent (cfg : String → String) (n : Nat) :
    iterate_stop cfg n = "" ∧
      route cfg "stop" (iterate_stop cfg n) = ("stop", "") := by
  have key : ∀ s, s = "" → (execute_command cfg "stop" s).play_state = "" := by
    intro s hs
    by_cases hc : cfg "stop" = "" <;> simp [execute_command, hc, hs]
  have hiter : iterate_stop cfg n = "" := by
    induction n with
    | zero => rfl
    | succ m ih => exact key _ ih
  refine ⟨hiter, ?_⟩
  rw [hiter]
  by_cases hc : cfg "stop" = "" <;> simp [route, execute_command, hc]

/-- C10: the playback state invariant: the initial state is Idle (""),
and for every configuration, every button key and every state in
the three-value set, the state after `execute_command` is again one of
"" (Idle), "playing" or "paused". -/
theorem play_state_invariant (cfg : String → String) (key s : String)
    (hs : s = "" ∨ s = "playing" ∨ s = "paused") :
    (initial_play_state = "" ∨ initial_play_state = "playing" ∨
        initial_play_state = "paused") ∧
      ((execute_command cfg key s).play_state = "" ∨
        (execute_command cfg key s).play_state = "playing" ∨
        (execute_command cfg key s).play_state = "paused") := by
  refine ⟨Or.inl rfl, ?_⟩
  have hmem : (execute_command cfg key s).play_state = s ∨
      (execute_command cfg key s).play_state = "" ∨
      (execute_command cfg key s).play_state = "playing" ∨
      (execute_command cfg key s).play_state = "paused" := by
    simp only [execute_command]
    split_ifs <;> simp
  rcases hmem with h | h | h | h
  · rw [h]; exact hs
  · exact Or.inl h
  · exact Or.inr (Or.inl h)
  · exact Or.inr (Or.inr h)

/-- C10 witness: at the identity configuration, key "record" and state
"playing". -/
theorem play_state_invariant_witness :
    (initial_play_state = "" ∨ initial_play_state = "playing" ∨
        initial_play_state = "paused") ∧
      ((execute_command (fun k => k) "record" "playing").play_state = "" ∨
        (execute_command (fun k => k) "record" "playing").play_state =
          "playing" ∨
        (execute_command (fun k => k) "record" "playing").play_state =
          "paused") :=
  play_state_invariant (fun k => k) "record" "playing" (Or.inr (Or.inl rfl))

/-- In an active armed session, a move repositions the window to
`point − offset`, keeps the session armed, and is consumed. -/
lemma mouse_move_armed (s : DragState) (off g : Point)
    (hd : s.draggable = true) (ho : s.offset = some off)
    (ha : s.drag_started = true) :
    mouse_move s g =
      ({ s with drag_started := true, winPos := Point.sub g off }, false) := by
  unfold mouse_move
  rw [ho]
  simp [hd, ha]

/-- In an active session, a move whose Manhattan displacement from the
press point exceeds the threshold arms the session and repositions the
window, whether or not the session was armed before. -/
lemma mouse_move_arms (s : DragState) (off g : Point)
    (hd : s.draggable = true) (ho : s.offset = some off)
    (harm : (Point.sub g s.press_pos).manhattanLength > 5) :
    mouse_move s g =
      ({ s with drag_started := true, winPos := Point.sub g off }, false) := by
  unfold mouse_move
  rw [ho]
  cases hds : s.drag_started <;> simp [hd, hds, harm]

/-- A move in an unarmed state, at Manhattan distance at most the
threshold from the press point, changes nothing and is forwarded. -/
lemma mouse_move_calm (s : DragState) (g : Point)
    (hu : s.drag_started = false)
    (hdist : (Point.sub g s.press_pos).manhattanLength ≤ 5) :
    mouse_move s g = (s, true) := by
  unfold mouse_move
  cases ho : s.offset with
  | none => rfl
  | some off =>
    cases hd : s.draggable <;> simp [hu, Nat.not_lt.mpr hdist]

/-- Any sequence of moves preserves an armed active session: the flags,
the offset and the press point survive every move. -/
lemma run_moves_armed (ms : List Point) :
    ∀ (s : DragState) (off : Point), s.draggable = true →
      s.offset = some off → s.drag_started = true →
      (run_moves s ms).draggable = true ∧
        (run_moves s ms).offset = some off ∧
        (run_moves s ms).drag_started = true := by
  induction ms with
  | nil => exact fun s off hd ho ha => ⟨hd, ho, ha⟩
  | cons g ms ih =>
    intro s off hd ho ha
    have hm := mouse_move_armed s off g hd ho ha
    simp only [run_moves, List.foldl_cons] at *
    rw [hm]
    exact ih _ off hd ho rfl

/-- A sequence of moves all within the threshold of the press point
leaves an unarmed session's state completely unchanged. -/
lemma run_moves_calm (ms : List Point) :
    ∀ s : DragState, s.drag_started = false →
      (∀ g ∈ ms, (Point.sub g s.press_pos).manhattanLength ≤ 5) →
      run_moves s ms = s := by
  induction ms with
  | nil => exact fun s _ _ => rfl
  | cons g ms ih =>
    intro s hu hall
    have h1 : mouse_move s g = (s, true) :=
      mouse_move_calm s g hu (hall g (by simp))
    simp only [run_moves, List.foldl_cons] at *
    rw [h1]
    exact ih s hu fun g' hg' => hall g' (by simp [hg'])

/-- C3: in an active session, a move whose Manhattan displacement from
the press point exceeds the threshold arms the session; after any list
of further moves the session is still armed; every subsequent move
repositions the window to `point − offset` and is consumed; and the
session's left-button release does not trigger the default click
behavior. -/
theorem drag_armed_monotone (s : DragState) (off g0 g : Point)
    (ms : List Point)
    (hd : s.draggable = true) (ho : s.offset = some off)
    (harm : (Point.sub g0 s.press_pos).manhattanLength > 5) :
    (mouse_move s g0).fst.drag_started = true ∧
      (run_moves (mouse_move s g0).fst ms).drag_started = true ∧
      mouse_move (run_moves (mouse_move s g0).fst ms) g =
        ({ run_moves (mouse_move s g0).fst ms with
            drag_started := true
            winPos := Point.sub g off }, false) ∧
      (mouse_release (run_moves (mouse_move s g0).fst ms)
          MouseButton.left).snd = false := by
  have h0 := mouse_move_arms s off g0 hd ho harm
  rw [h0]
  have hrun := run_moves_armed ms
    { s with drag_started := true, winPos := Point.sub g0 off } off hd ho rfl
  obtain ⟨hd2, ho2, ha2⟩ := hrun
  refine ⟨rfl, ha2, mouse_move_armed _ off g hd2 ho2 ha2, ?_⟩
  simp [mouse_release, ha2]

/-- C3 witness: press state with press point (100,100), window at
(97,96); the move to (110,100) (Manhattan distance 10) arms; a later
move back to the press point keeps it armed; the next move repositions;
the release is suppressed. -/
theorem drag_armed_monotone_witness :
    (mouse_move ⟨true, false, some ⟨3, 4⟩, ⟨100, 100⟩, ⟨97, 96⟩⟩
        ⟨110, 100⟩).fst.drag_started = true ∧
      (run_moves (mouse_move ⟨true, false, some ⟨3, 4⟩, ⟨100, 100⟩, ⟨97, 96⟩⟩
          ⟨110, 100⟩).fst [⟨100, 100⟩]).drag_started = true ∧
      mouse_move (run_moves
          (mouse_move ⟨true, false, some ⟨3, 4⟩, ⟨100, 100⟩, ⟨97, 96⟩⟩
            ⟨110, 100⟩).fst [⟨100, 100⟩]) ⟨120, 130⟩ =
        ({ run_moves
            (mouse_move ⟨true, false, some ⟨3, 4⟩, ⟨100, 100⟩, ⟨97, 96⟩⟩
              ⟨110, 100⟩).fst [⟨100, 100⟩] with
            drag_started := true
            winPos := Point.sub ⟨120, 130⟩ ⟨3, 4⟩ }, false) ∧
      (mouse_release (run_moves
          (mouse_move ⟨true, false, some ⟨3, 4⟩, ⟨100, 100⟩, ⟨97, 96⟩⟩
            ⟨110, 100⟩).fst [⟨100, 100⟩]) MouseButton.left).snd = false :=
  drag_armed_monotone ⟨true, false, some ⟨3, 4⟩, ⟨100, 100⟩, ⟨97, 96⟩⟩
    ⟨3, 4⟩ ⟨110, 100⟩ ⟨120, 130⟩ [⟨100, 100⟩] rfl rfl (by decide)

/-- C4: after a primary-button press, if no move's Manhattan distance
from the press point exceeds the threshold, the window position is never
changed, the session never arms, and the primary-button release forwards
to the default click behavior. -/
theorem drag_below_threshold_click (s0 : DragState) (p : Point)
    (ms : List Point)
    (hall : ∀ g ∈ ms, (Point.sub g p).manhattanLength ≤ 5) :
    (run_moves (mouse_press s0 MouseButton.left p).fst ms).winPos =
        s0.winPos ∧
      (run_moves (mouse_press s0 MouseButton.left p).fst ms).drag_started =
        false ∧
      (mouse_release (run_moves (mouse_press s0 MouseButton.left p).fst ms)
          MouseButton.left).snd = true := by
  have hpress : (mouse_press s0 MouseButton.left p).fst =
      { s0 with
          draggable := true
          drag_started := false
          offset := some (Point.sub p s0.winPos)
          press_pos := p } := by
    simp [mouse_press]
  rw [hpress]
  rw [run_moves_calm ms _ rfl hall]
  exact ⟨rfl, rfl, by simp [mouse_release]⟩

/-- C4 witness: press at (100,100) with window at (50,60), moves to
(101,101) and (98,103) (distances 2 and 5): no reposition and the
release forwards the click. -/
theorem drag_below_threshold_click_witness :
    (run_moves (mouse_press ⟨false, false, none, ⟨0, 0⟩, ⟨50, 60⟩⟩
        MouseButton.left ⟨100, 100⟩).fst
        [⟨101, 101⟩, ⟨98, 103⟩]).winPos = (⟨50, 60⟩ : Point) ∧
      (run_moves (mouse_press ⟨false, false, none, ⟨0, 0⟩, ⟨50, 60⟩⟩
          MouseButton.left ⟨100, 100⟩).fst
          [⟨101, 101⟩, ⟨98, 103⟩]).drag_started = false ∧
      (mouse_release (run_moves
          (mouse_press ⟨false, false, none, ⟨0, 0⟩, ⟨50, 60⟩⟩
            MouseButton.left ⟨100, 100⟩).fst
          [⟨101, 101⟩, ⟨98, 103⟩]) MouseButton.left).snd = true :=
  drag_below_threshold_click ⟨false, false, none, ⟨0, 0⟩, ⟨50, 60⟩⟩
    ⟨100, 100⟩ [⟨101, 101⟩, ⟨98, 103⟩] (by decide)

/-- C7: in an active unarmed session, a move arms the session if and
only if its Manhattan distance from the press point strictly exceeds 5;
at distance 5 or less it neither arms nor repositions the window, and
the move is forwarded to the default handler. -/
theorem mouse_move_arm_iff (s : DragState) (g : Point)
    (hd : s.draggable = true) (ho : s.offset.isSome = true)
    (hu : s.drag_started = false) :
    ((mouse_move s g).fst.drag_started = true ↔
        (Point.sub g s.press_pos).manhattanLength > 5) ∧
      ((Point.sub g s.press_pos).manhattanLength ≤ 5 →
        (mouse_move s g).fst.winPos = s.winPos ∧
          (mouse_move s g).snd = true) := by
  obtain ⟨off, ho'⟩ := Option.isSome_iff_exists.mp ho
  by_cases hdist : (Point.sub g s.press_pos).manhattanLength > 5
  · rw [mouse_move_arms s off g hd ho' hdist]
    exact ⟨⟨fun _ => hdist, fun _ => rfl⟩,
      fun hle => absurd hdist (Nat.not_lt.mpr hle)⟩
  · rw [mouse_move_calm s g hu (Nat.not_lt.mp hdist)]
    exact ⟨⟨fun h => absurd h (by simp [hu]), fun h => absurd h hdist⟩,
      fun _ => ⟨rfl, rfl⟩⟩

/-- C7 witness: in an active unarmed session with press point (100,100),
the move to (103,102) is at Manhattan distance exactly 5: it does not
arm, does not reposition, and is forwarded. -/
theorem mouse_move_arm_iff_witness :
    ((mouse_move ⟨true, false, some ⟨3, 4⟩, ⟨100, 100⟩, ⟨97, 96⟩⟩
          ⟨103, 102⟩).fst.drag_started = true ↔
        (Point.sub ⟨103, 102⟩
          (DragState.press_pos
            ⟨true, false, some ⟨3, 4⟩, ⟨100, 100⟩, ⟨97, 96⟩⟩)).manhattanLength
          > 5) ∧
      ((Point.sub ⟨103, 102⟩
          (DragState.press_pos
            ⟨true, false, some ⟨3, 4⟩, ⟨100, 100⟩, ⟨97, 96⟩⟩)).manhattanLength
          ≤ 5 →
        (mouse_move ⟨true, false, some ⟨3, 4⟩, ⟨100, 100⟩, ⟨97, 96⟩⟩
            ⟨103, 102⟩).fst.winPos =
          DragState.winPos ⟨true, false, some ⟨3, 4⟩, ⟨100, 100⟩, ⟨97, 96⟩⟩ ∧
          (mouse_move ⟨true, false, some ⟨3, 4⟩, ⟨100, 100⟩, ⟨97, 96⟩⟩
            ⟨103, 102⟩).snd = true) :=
  mouse_move_arm_iff ⟨true, false, some ⟨3, 4⟩, ⟨100, 100⟩, ⟨97, 96⟩⟩
    ⟨103, 102⟩ rfl rfl rfl

/-- C9: a press with a non-primary pointer button leaves the whole drag
state unchanged (no session is started or affected) and still forwards
the press to the default press behavior. -/
theorem mouse_press_non_primary (s : DragState) (b : MouseButton)
    (g : Point) (hb : b ≠ MouseButton.left) :
    mouse_press s b g = (s, true) := by
  simp [mouse_press, hb]

/-- C9 witness: a right-button press at (5,7) on an idle drag state. -/
theorem mouse_press_non_primary_witness :
    mouse_press ⟨false, false, none, ⟨0, 0⟩, ⟨50, 60⟩⟩ MouseButton.right
        ⟨5, 7⟩ =
      (⟨false, false, none, ⟨0, 0⟩, ⟨50, 60⟩⟩, true) :=
  mouse_press_non_primary ⟨false, false, none, ⟨0, 0⟩, ⟨50, 60⟩⟩
    MouseButton.right ⟨5, 7⟩ (by decide)

end FloatingToolbar
